import Mathlib

/-!
Host agent of aci-containers: snoop fallback, IPAM metadata, sync dispatcher.

A shallow embedding of

* `pkg/hostagent/snoop.go`   (`initPaths`, `fetchIf`, `snoopContainerIfaces`),
* `pkg/metadata/ipammeta.go` (`genIPAMMeta`, `WriteIPAMMetaData`),
* `pkg/hostagent/agent.go`   (`ScheduleSync`, `processSyncQueue`, `EnableSync`).

Go strings are Lean strings, Go errors are `Option String` (`none` is `nil`),
a run-time panic is recorded explicitly in the result of the function that
raises it.  The operating system, the JSON encoder and the sync processors are
parameters of the functions that use them.
-/

set_option autoImplicit false

namespace Hostagent

/-! ## `strings.Split` with a one-character separator -/

/-- Fields of a character list cut at every occurrence of `sep`.  As in Go the
result is never empty: the empty input yields one empty field. -/
def splitChars (sep : Char) : List Char → List (List Char)
  | [] => [[]]
  | c :: cs =>
    if c = sep then [] :: splitChars sep cs
    else
      match splitChars sep cs with
      | [] => [[c]]
      | f :: fs => (c :: f) :: fs

/-- Go `strings.Split(s, sep)` for a separator of one character (the source
only splits at a newline and at a blank). -/
def Split (s : String) (sep : Char) : List String :=
  (splitChars sep s.data).map String.mk

/-! ## The host as seen by `fetchIf` -/

/-- The two package variables `ipPath` and `bridgePath`. -/
structure Paths where
  ipPath : String
  bridgePath : String
  deriving DecidableEq, Repr

/-- The operating system services used by the snoop code: `exec.LookPath` and
`exec.Command(path, args...).CombinedOutput()`.  `Except.error` carries the Go
error of a failed call. -/
structure Host where
  LookPath : String → Except String String
  CombinedOutput : String → List String → Except String String

/-- One entry of `pathList` in `initPaths`: which package variable it points
to and the command looked up for it. -/
inductive PathVar where
  | ip
  | bridge
  deriving DecidableEq, Repr

/-- Dereference of `p.path`. -/
def Paths.get (ps : Paths) : PathVar → String
  | .ip => ps.ipPath
  | .bridge => ps.bridgePath

/-- Assignment `*p.path = path`. -/
def Paths.set (ps : Paths) : PathVar → String → Paths
  | .ip, v => { ps with ipPath := v }
  | .bridge, v => { ps with bridgePath := v }

/-- The loop of `initPaths` over the remaining entries of `pathList`. -/
def initPathsLoop (host : Host) : List (PathVar × String) → Paths → Paths × Option String
  | [], ps => (ps, none)
  | (v, cmd) :: rest, ps =>
    if ps.get v ≠ "" then initPathsLoop host rest ps
    else
      match host.LookPath cmd with
      | .error e => (ps, some e)
      | .ok path => initPathsLoop host rest (ps.set v path)

/-- Go `initPaths`: resolve `ip` and `bridge` unless already resolved. -/
def initPaths (host : Host) (ps : Paths) : Paths × Option String :=
  initPathsLoop host [(.ip, "ip"), (.bridge, "bridge")] ps

/-! ## `fetchIf` -/

/-- The `for _, l := range lines` loop of the closure `searchOut`.  `none` is
the run-time panic of an index out of range. -/
def searchOutLoop (key : String) (keyIndex valIndex : Nat) : List String → Option String
  | [] => some ""
  | l :: rest =>
    let entries := Split l ' '
    match entries[keyIndex]? with
    | none => none
    | some e =>
      if e = key then
        if entries.length > valIndex then entries[valIndex]? else some ""
      else searchOutLoop key keyIndex valIndex rest

/-- The closure `searchOut` of `fetchIf`. -/
def searchOut (data key : String) (keyIndex valIndex : Nat) : Option String :=
  searchOutLoop key keyIndex valIndex (Split data '\n')

/-- What a call of `fetchIf` leaves behind: the three returned values, whether
it panicked instead of returning, the package variables afterwards and the
commands it ran, in order (path first, then the arguments). -/
structure FetchIfResult where
  mac : String
  ifname : String
  err : Option String
  panicked : Bool
  paths : Paths
  ran : List (List String)
  deriving DecidableEq, Repr

/-- Go `fetchIf`. -/
def fetchIf (host : Host) (ps : Paths) (ipAddr : String) : FetchIfResult :=
  match initPaths host ps with
  | (ps1, some e) => ⟨"", "", some e, false, ps1, []⟩
  | (ps1, none) =>
    let cmd1 := [ps1.ipPath, "neighbor", "show"]
    match host.CombinedOutput ps1.ipPath ["neighbor", "show"] with
    | .error e => ⟨"", "", some e, false, ps1, [cmd1]⟩
    | .ok neighbors =>
      match searchOut neighbors ipAddr 0 4 with
      | none => ⟨"", "", none, true, ps1, [cmd1]⟩
      | some mac =>
        if mac = "" then ⟨"", "", some "mac not found", false, ps1, [cmd1]⟩
        else
          let cmd2 := [ps1.bridgePath, "fdb", "show"]
          match host.CombinedOutput ps1.bridgePath ["fdb", "show"] with
          | .error e => ⟨"", "", some e, false, ps1, [cmd1, cmd2]⟩
          | .ok fdb =>
            match searchOut fdb mac 0 2 with
            | none => ⟨"", "", none, true, ps1, [cmd1, cmd2]⟩
            | some ifname => ⟨mac, ifname, none, false, ps1, [cmd1, cmd2]⟩

/-- A host whose tools are installed under `/sbin` and print the given
neighbor table and forwarding database. -/
def tableHost (N F : String) : Host where
  LookPath := fun cmd => .ok ("/sbin/" ++ cmd)
  CombinedOutput := fun path args =>
    if path = "/sbin/ip" ∧ args = ["neighbor", "show"] then .ok N
    else if path = "/sbin/bridge" ∧ args = ["fdb", "show"] then .ok F
    else .error "exit status 1"

/-- Package variables before the first call: both paths unset. -/
def noPaths : Paths := ⟨"", ""⟩

/-- Read side of the tables: the first line of `table` whose first
blank-separated field is `key`. -/
def firstLineFor (table key : String) : Option String :=
  (Split table '\n').find? (fun l => decide ((Split l ' ').head? = some key))

end Hostagent

namespace Metadata

/-! ## `pkg/metadata/ipammeta.go` -/

/-- Go `net.IP`: a slice of bytes, empty for `nil`. -/
abbrev IP := List Nat

/-- Go `net.IPNet`. -/
structure IPNet where
  IP : IP
  Mask : List Nat
  deriving DecidableEq, Repr

/-- Type `ipam.IpRange`: the two ends of a range of addresses. -/
structure IpRange where
  Start : IP
  End : IP
  deriving DecidableEq, Repr

/-- Type `NetIps`: the owned ranges of each address family. -/
structure NetIps where
  V4 : List IpRange
  V6 : List IpRange
  deriving DecidableEq, Repr

/-- Go `Subnet`. -/
structure Subnet where
  Network : String
  VTEP : String
  deriving DecidableEq, Repr

/-- Go `IPAMMetaData`. -/
structure IPAMMetaData where
  UUID : String
  Map : List Subnet
  deriving DecidableEq, Repr

/-- What `ipammeta.go` calls outside its own file: `ipam.Range2Cidr`, the
method `(*net.IPNet).String`, `json.MarshalIndent` and `ioutil.WriteFile`
(the last returns the error, `none` for success). -/
structure Lib where
  Range2Cidr : IP → IP → List IPNet
  netString : IPNet → String
  MarshalIndent : IPAMMetaData → Except String String
  WriteFile : String → String → Nat → Option String

/-- Go `genIPAMMeta`: first loop collects the prefixes of every V4 range,
second loop turns each prefix into a `Subnet`. -/
def genIPAMMeta (lib : Lib) (vtep : String) (ipRanges : NetIps) : IPAMMetaData :=
  let subnets : List IPNet :=
    ipRanges.V4.foldl (fun subnets n => subnets ++ lib.Range2Cidr n.Start n.End) []
  subnets.foldl
    (fun result nw => { result with Map := result.Map ++ [{ Network := lib.netString nw, VTEP := vtep }] })
    { UUID := "", Map := [] }

/-- What a call of `WriteIPAMMetaData` does: the document handed to the JSON
encoder, the file write it requested (path, content, permission bits) if it
got that far, and the returned error. -/
structure WriteResult where
  document : IPAMMetaData
  written : Option (String × String × Nat)
  err : Option String
  deriving DecidableEq, Repr

/-- Go `WriteIPAMMetaData`. -/
def WriteIPAMMetaData (lib : Lib) (file vtep : String) (ipRanges : NetIps) : WriteResult :=
  let data := genIPAMMeta lib vtep ipRanges
  let data := { data with UUID := file ++ "-" ++ vtep }
  match lib.MarshalIndent data with
  | .error e => ⟨data, none, some e⟩
  | .ok datacont => ⟨data, some (file, datacont, 0o644), lib.WriteFile file datacont 0o644⟩

/-- The document the specification describes: the identifier is the file path,
a dash and the tunnel address; the map has, in order, one entry per prefix of
each V4 range. -/
def referenceDocument (lib : Lib) (file vtep : String) (ipRanges : NetIps) : IPAMMetaData where
  UUID := file ++ "-" ++ vtep
  Map := (ipRanges.V4.map (fun n => (lib.Range2Cidr n.Start n.End).map
    (fun nw => ({ Network := lib.netString nw, VTEP := vtep } : Subnet)))).flatten

/-! ### A concrete library for IPv4 -/

/-- Number of low bits in which `s` and `e` may differ: both are halved until
they agree. -/
def hostBits : Nat → Nat → Nat → Nat
  | 0, _, _ => 0
  | fuel + 1, s, e => if s = e then 0 else hostBits fuel (s / 2) (e / 2) + 1

/-- The 32-bit number of a four-byte address. -/
def ipToNat : IP → Option Nat
  | [a, b, c, d] => some (((a * 256 + b) * 256 + c) * 256 + d)
  | _ => none

/-- The four bytes of a 32-bit number. -/
def natToIP (n : Nat) : IP :=
  [n / 2 ^ 24 % 256, n / 2 ^ 16 % 256, n / 2 ^ 8 % 256, n % 256]

/-- Modelled from the spec: `ipam.Range2Cidr` of package `pkg/ipam`, which is
not among the sources.  The specification says the generator "collapses the
ranges into minimal covering subnet prefixes" and that the range 10.1.0.1 to
10.1.0.255 gives the one prefix 10.1.0.0/24: a range is covered by the
smallest prefix that contains both of its ends.  Addresses that are not four
bytes long give no prefix. -/
def Range2Cidr (start stop : IP) : List IPNet :=
  match ipToNat start, ipToNat stop with
  | some s, some e =>
    let h := hostBits 32 s e
    [{ IP := natToIP (s / 2 ^ h * 2 ^ h), Mask := natToIP (2 ^ 32 - 2 ^ h) }]
  | _, _ => []

/-- Number of leading one bits of a byte, if the byte is a run of ones
followed by zeros. -/
def byteOnes : Nat → Option Nat
  | 0 => some 0
  | 128 => some 1
  | 192 => some 2
  | 224 => some 3
  | 240 => some 4
  | 248 => some 5
  | 252 => some 6
  | 254 => some 7
  | 255 => some 8
  | _ => none

/-- Go `simpleMaskLength`: the prefix length of a mask of ones followed by
zeros, `none` (Go `-1`) for any other mask. -/
def simpleMaskLength : List Nat → Option Nat
  | [] => some 0
  | b :: rest =>
    if b = 255 then (simpleMaskLength rest).map (· + 8)
    else if rest.all (· == 0) then byteOnes b else none

/-- Dotted decimal form of a four-byte address. -/
def dotted : IP → String
  | [a, b, c, d] => toString a ++ "." ++ toString b ++ "." ++ toString c ++ "." ++ toString d
  | _ => "<nil>"

/-- Go `IP.To4`: a four-byte address as it is, the last four bytes of a
sixteen-byte address that carries an IPv4 address, `[]` (Go `nil`) otherwise. -/
def To4 (ip : IP) : IP :=
  if ip.length = 4 then ip
  else if ip.length = 16 ∧ (ip.take 10).all (· == 0) ∧ ip[10]? = some 255 ∧ ip[11]? = some 255 then
    ip.drop 12
  else []

/-- One lower-case hexadecimal digit. -/
def hexDigit (n : Nat) : Char :=
  "0123456789abcdef".data.getD n '0'

/-- Go `hexString`: two hexadecimal digits for every byte. -/
def hexString (bs : List Nat) : String :=
  String.mk (bs.foldr (fun b acc => hexDigit (b / 16) :: hexDigit (b % 16) :: acc) [])

/-- Go `appendHex`: a 16-bit group in hexadecimal without leading zeros. -/
def hexGroup (g : Nat) : String :=
  if g / 4096 ≠ 0 then
    String.mk [hexDigit (g / 4096), hexDigit (g / 256 % 16), hexDigit (g / 16 % 16), hexDigit (g % 16)]
  else if g / 256 ≠ 0 then
    String.mk [hexDigit (g / 256 % 16), hexDigit (g / 16 % 16), hexDigit (g % 16)]
  else if g / 16 ≠ 0 then String.mk [hexDigit (g / 16 % 16), hexDigit (g % 16)]
  else String.mk [hexDigit (g % 16)]

/-- The 16-bit groups of a byte list, two bytes each. -/
def groups : List Nat → List Nat
  | a :: b :: rest => (a * 256 + b) :: groups rest
  | _ => []

/-- Number of zero groups at the head of a list. -/
def zeroRun : List Nat → Nat
  | 0 :: rest => zeroRun rest + 1
  | _ => 0

/-- The search of `IP.String` for the longest run of zero groups: start and
length of the first run that is longer than all before it, from group `i` on
with `best` found so far. -/
def longestZeroRun : List Nat → Nat → Nat × Nat → Nat × Nat
  | [], _, best => best
  | g :: rest, i, best =>
    longestZeroRun rest (i + 1) (if zeroRun (g :: rest) > best.2 then (i, zeroRun (g :: rest)) else best)

/-- Go `IP.String` for a sixteen-byte address that is not an IPv4 address:
groups in hexadecimal separated by colons, the longest run of two or more
zero groups written `::`. -/
def ip6String (ip : IP) : String :=
  let gs := groups ip
  let best := longestZeroRun gs 0 (0, 0)
  if best.2 ≤ 1 then ":".intercalate (gs.map hexGroup)
  else
    ":".intercalate ((gs.take best.1).map hexGroup) ++ "::" ++
      ":".intercalate ((gs.drop (best.1 + best.2)).map hexGroup)

/-- Go `IP.String`. -/
def ipString (ip : IP) : String :=
  if ip.length = 0 then "<nil>"
  else if (To4 ip).length = 4 then dotted (To4 ip)
  else if ip.length ≠ 16 then "?" ++ hexString ip
  else ip6String ip

/-- Go `networkNumberAndMask`: the address in its short form when it is an
IPv4 address, and the mask cut to the same length; `none` (Go `nil, nil`) for
an address or mask of another length. -/
def networkNumberAndMask (n : IPNet) : Option (IP × List Nat) :=
  let ip4 := To4 n.IP
  if ip4 = [] ∧ n.IP.length ≠ 16 then none
  else
    let ip := if ip4 = [] then n.IP else ip4
    if n.Mask.length = 4 then
      if ip.length ≠ 4 then none else some (ip, n.Mask)
    else if n.Mask.length = 16 then
      some (ip, if ip.length = 4 then n.Mask.drop 12 else n.Mask)
    else none

/-- Go `(*net.IPNet).String`: the address, a slash and the prefix length, or
the mask in hexadecimal when it is not a run of ones followed by zeros;
`<nil>` when address and mask do not fit. -/
def IPNet.String (n : IPNet) : String :=
  match networkNumberAndMask n with
  | none => "<nil>"
  | some (nn, m) =>
    match simpleMaskLength m with
    | none => ipString nn ++ "/" ++ hexString m
    | some l => ipString nn ++ "/" ++ toString l

/-- The library with the modelled `Range2Cidr`, the IPv4 rendering, and an
encoder and a file system that are given. -/
def ipv4Lib (marshal : IPAMMetaData → Except String String)
    (write : String → String → Nat → Option String) : Lib where
  Range2Cidr := Range2Cidr
  netString := IPNet.String
  MarshalIndent := marshal
  WriteFile := write

/-! ### Example data -/

/-- The owned ranges of the specification example: 10.1.0.1 to 10.1.0.255. -/
def exampleRanges : NetIps where
  V4 := [{ Start := [10, 1, 0, 1], End := [10, 1, 0, 255] }]
  V6 := []

end Metadata

namespace Hostagent

open Metadata

/-! ## Agent state (`pkg/hostagent/agent.go`) -/

/-- A Go `map[string]V` as the list of its entries, every key at most once. -/
structure GoMap (V : Type) where
  entries : List (String × V)
  deriving DecidableEq, Repr

/-- Lookup `m[k]` with the presence flag. -/
def GoMap.get? {V : Type} (m : GoMap V) (k : String) : Option V :=
  m.entries.lookup k

/-- Replace the value under `k` in a list of entries, or add the entry. -/
def setEntry {V : Type} (k : String) (v : V) : List (String × V) → List (String × V)
  | [] => [(k, v)]
  | (k1, v1) :: rest => if k1 = k then (k, v) :: rest else (k1, v1) :: setEntry k v rest

/-- Assignment `m[k] = v`. -/
def GoMap.set {V : Type} (m : GoMap V) (k : String) (v : V) : GoMap V :=
  ⟨setEntry k v m.entries⟩

/-- Type `md.ContainerId`. -/
structure ContainerId where
  Namespace : String
  Pod : String
  ContId : String
  deriving DecidableEq, Repr

/-- Type `md.ContainerIfaceIP`. -/
structure ContainerIfaceIP where
  Address : IPNet
  deriving DecidableEq, Repr

/-- Type `md.ContainerIfaceMd`. -/
structure ContainerIfaceMd where
  HostVethName : String
  Mac : String
  IPs : List ContainerIfaceIP
  deriving DecidableEq, Repr

/-- Type `md.ContainerMetadata`. -/
structure ContainerMetadata where
  Id : ContainerId
  Ifaces : List ContainerIfaceMd
  deriving DecidableEq, Repr

/-- The part of `HostAgentConfig` read here. -/
structure HostAgentConfig where
  SnoopOnly : Bool
  deriving DecidableEq, Repr

/-- An item of the work queue, of Go type `interface{}`: a string, or a value
of some other dynamic type. -/
inductive Item where
  | str (s : String)
  | other (tag : Nat)
  deriving DecidableEq, Repr

/-- State of the client-go work queue behind `syncQueue` (library code): the
items waiting in order, the set of items that need processing, the set of
items being processed, the shut-down flag, the tokens left in the bucket of
the rate limiter (`NewHostAgent` builds it with 10 tokens a second and a burst
of 10; a negative count stands for tokens reserved ahead), and the items the
rate limiter holds back until their delay has passed. -/
structure SyncQueue where
  queue : List Item
  dirty : List Item
  processing : List Item
  shuttingDown : Bool
  tokens : Int
  waiting : List Item
  deriving DecidableEq, Repr

/-- Library `Add`: an item already marked dirty is dropped, an item being
processed is only marked dirty, any other item is marked and appended. -/
def SyncQueue.Add (q : SyncQueue) (item : Item) : SyncQueue :=
  if q.shuttingDown then q
  else if item ∈ q.dirty then q
  else if item ∈ q.processing then { q with dirty := q.dirty ++ [item] }
  else { q with dirty := q.dirty ++ [item], queue := q.queue ++ [item] }

/-- Library `AddRateLimited`, that is `AddAfter(item, rateLimiter.When(item))`.
`When` reserves one token of the bucket whatever happens next.  A queue that
is shutting down then drops the item; with a token at hand the delay is zero
and the item is added at once; with the bucket empty the item is only held
back in `waiting`.  Time is not modelled: tokens are counted whole, and the
refill of the bucket and the later hand-over of a held-back item to `Add` are
steps of the library's own timer, taken by no function of the agent. -/
def SyncQueue.AddRateLimited (q : SyncQueue) (item : Item) : SyncQueue :=
  let q1 := { q with tokens := q.tokens - 1 }
  if q1.shuttingDown then q1
  else if 1 ≤ q.tokens then q1.Add item
  else if item ∈ q1.waiting then q1
  else { q1 with waiting := q1.waiting ++ [item] }

/-- Library `Get` when an item is waiting: the head of the queue moves from
dirty to processing.  `none` stands for the empty queue, where the call blocks
or, after shut-down, reports `quit`. -/
def SyncQueue.Get (q : SyncQueue) : Option (Item × SyncQueue) :=
  match q.queue with
  | [] => none
  | item :: rest =>
    some (item, { q with queue := rest, processing := q.processing ++ [item],
                         dirty := q.dirty.filter (· ≠ item) })

/-- Library `Forget`: resets the retry count kept by the rate limiter; the
token-bucket limiter of `NewHostAgent` keeps none, the queue is unchanged. -/
def SyncQueue.Forget (q : SyncQueue) (_item : Item) : SyncQueue := q

/-- Library `Done`: the item leaves processing and is queued again if it was
marked dirty meanwhile. -/
def SyncQueue.Done (q : SyncQueue) (item : Item) : SyncQueue :=
  let q1 := { q with processing := q.processing.filter (· ≠ item) }
  if item ∈ q1.dirty then { q1 with queue := q1.queue ++ [item] } else q1

/-- The fields of `HostAgent` that the embedded functions read or write. -/
structure HostAgent where
  config : HostAgentConfig
  epMetadata : GoMap (GoMap ContainerMetadata)
  syncEnabled : Bool
  syncQueue : SyncQueue
  deriving DecidableEq, Repr

/-- A sync processor, Go type `func() bool` bound to the agent: it returns the
retry flag and may change the agent. -/
abbrev Processor := HostAgent → Bool × HostAgent

/-- The eight methods entered in the registry by `NewHostAgent`; their bodies
live in other files and are parameters here. -/
structure Processors where
  syncEps : Processor
  syncServices : Processor
  syncOpflexServer : Processor
  syncSnat : Processor
  syncSnatNodeInfo : Processor
  syncRdConfig : Processor
  syncIPAMMeta : Processor
  UpdateLocalInfoCr : Processor

/-- The registry `ha.syncProcessors` built in `NewHostAgent`. -/
def syncProcessors (p : Processors) : GoMap Processor :=
  ⟨[("eps", p.syncEps),
    ("services", p.syncServices),
    ("opflexServer", p.syncOpflexServer),
    ("snat", p.syncSnat),
    ("snatnodeInfo", p.syncSnatNodeInfo),
    ("rdconfig", p.syncRdConfig),
    ("ipamMeta", p.syncIPAMMeta),
    ("snatLocalInfo", p.UpdateLocalInfoCr)]⟩

/-- The domain names of the registry. -/
def registeredDomains : List String :=
  ["eps", "services", "opflexServer", "snat", "snatnodeInfo", "rdconfig", "ipamMeta",
   "snatLocalInfo"]

/-- Go `ScheduleSync`. -/
def ScheduleSync (agent : HostAgent) (syncType : String) : HostAgent :=
  { agent with syncQueue := agent.syncQueue.AddRateLimited (.str syncType) }

/-- Go `scheduleSyncEps`. -/
def scheduleSyncEps (agent : HostAgent) : HostAgent := ScheduleSync agent "eps"

/-- Go `scheduleSyncServices`. -/
def scheduleSyncServices (agent : HostAgent) : HostAgent := ScheduleSync agent "services"

/-- Go `scheduleSyncSnats`. -/
def scheduleSyncSnats (agent : HostAgent) : HostAgent := ScheduleSync agent "snat"

/-- Go `scheduleSyncOpflexServer`. -/
def scheduleSyncOpflexServer (agent : HostAgent) : HostAgent := ScheduleSync agent "opflexServer"

/-- Go `scheduleSyncNodeInfo`. -/
def scheduleSyncNodeInfo (agent : HostAgent) : HostAgent := ScheduleSync agent "snatnodeInfo"

/-- Go `scheduleSyncRdConfig`. -/
def scheduleSyncRdConfig (agent : HostAgent) : HostAgent := ScheduleSync agent "rdconfig"

/-- Go `scheduleSyncLocalInfo`. -/
def scheduleSyncLocalInfo (agent : HostAgent) : HostAgent := ScheduleSync agent "snatLocalInfo"

/-- Go `scheduleSyncIPAMMeta`. -/
def scheduleSyncIPAMMeta (agent : HostAgent) : HostAgent := ScheduleSync agent "ipamMeta"

/-- What the dispatcher does with a dequeued item, in order. -/
inductive Event where
  | invoke (domain : String)
  | addRateLimited (item : Item)
  | forget (item : Item)
  | done (item : Item)
  deriving DecidableEq, Repr

/-- The type switch of the dispatcher: the processor call if the item is a
string with an entry in the registry.  Returns `requeue`, the processor calls
made, and the agent afterwards. -/
def runProcessor (p : Processors) (agent : HostAgent) : Item → Bool × List Event × HostAgent
  | .str syncType =>
    match (syncProcessors p).get? syncType with
    | some f => ((f agent).1, [.invoke syncType], (f agent).2)
    | none => (false, [], agent)
  | .other _ => (false, [], agent)

/-- Body of the `for` loop of `processSyncQueue` after `queue.Get()` returned
`syncType`: processor call, then `AddRateLimited` or `Forget`, then `Done`. -/
def dispatch (p : Processors) (agent : HostAgent) (syncType : Item) : List Event × HostAgent :=
  match runProcessor p agent syncType with
  | (requeue, calls, agent1) =>
    if requeue then
      (calls ++ [.addRateLimited syncType, .done syncType],
       { agent1 with syncQueue := (agent1.syncQueue.AddRateLimited syncType).Done syncType })
    else
      (calls ++ [.forget syncType, .done syncType],
       { agent1 with syncQueue := (agent1.syncQueue.Forget syncType).Done syncType })

/-- One turn of the `for` loop of `processSyncQueue`: `queue.Get()` followed by
the loop body.  `none` when no item is waiting. -/
def processSyncQueueTurn (p : Processors) (agent : HostAgent) :
    Option (Item × List Event × HostAgent) :=
  match agent.syncQueue.Get with
  | none => none
  | some (syncType, q) => some (syncType, dispatch p { agent with syncQueue := q } syncType)

/-- Go `EnableSync`; returns `changed` and the agent afterwards. -/
def EnableSync (agent : HostAgent) : Bool × HostAgent :=
  let changed := false
  let (agent, changed) :=
    if agent.syncEnabled = false then ({ agent with syncEnabled := true }, true)
    else (agent, changed)
  if changed then
    (changed, scheduleSyncNodeInfo (scheduleSyncSnats (scheduleSyncEps (scheduleSyncServices agent))))
  else (changed, agent)

/-- The domain `d` is scheduled: the queue holds it for processing. -/
def scheduled (agent : HostAgent) (d : String) : Prop :=
  Item.str d ∈ agent.syncQueue.dirty

instance (agent : HostAgent) (d : String) : Decidable (scheduled agent d) := by
  unfold scheduled; infer_instance

/-- The domain `d` is held back by the rate limiter: handed to
`AddRateLimited`, not yet on the queue. -/
def parked (agent : HostAgent) (d : String) : Prop :=
  Item.str d ∈ agent.syncQueue.waiting

instance (agent : HostAgent) (d : String) : Decidable (parked agent d) := by
  unfold parked; infer_instance

/-! ## `snoopContainerIfaces` -/

/-- Type `v1.ObjectMeta`, the fields read. -/
structure ObjectMeta where
  Name : String
  Namespace : String
  deriving DecidableEq, Repr

/-- Type `v1.ContainerStatus`, the field read. -/
structure ContainerStatus where
  ContainerID : String
  deriving DecidableEq, Repr

/-- Type `v1.PodStatus`, the fields read. -/
structure PodStatus where
  PodIP : String
  ContainerStatuses : List ContainerStatus
  deriving DecidableEq, Repr

/-- Type `v1.Pod`. -/
structure Pod where
  ObjectMeta : ObjectMeta
  Status : PodStatus
  deriving DecidableEq, Repr

/-- Go `strings.TrimPrefix`. -/
def TrimPrefix (s pre : String) : String :=
  if pre.data.isPrefixOf s.data then String.mk (s.data.drop pre.data.length) else s

/-- What a call of `snoopContainerIfaces` leaves behind: the agent, the package
variables, and whether the call ended in a run-time panic. -/
structure SnoopResult where
  agent : HostAgent
  paths : Paths
  panicked : Bool
  deriving DecidableEq, Repr

/-- Go `snoopContainerIfaces`.  `ParseIP` is `net.ParseIP`. -/
def snoopContainerIfaces (host : Host) (ParseIP : String → IP) (ps : Paths)
    (agent : HostAgent) (pod : Pod) : SnoopResult :=
  if !agent.config.SnoopOnly then ⟨agent, ps, false⟩
  else if pod.Status.PodIP = "" then ⟨agent, ps, false⟩
  else
    let epKey := pod.ObjectMeta.Namespace ++ "/" ++ pod.ObjectMeta.Name
    match agent.epMetadata.get? epKey with
    | some _ => ⟨agent, ps, false⟩
    | none =>
      let r := fetchIf host ps pod.Status.PodIP
      if r.panicked then ⟨agent, r.paths, true⟩
      else if r.err ≠ none then ⟨agent, r.paths, false⟩
      else
        let ips : List ContainerIfaceIP := [{ Address := { IP := ParseIP pod.Status.PodIP, Mask := [] } }]
        match pod.Status.ContainerStatuses[0]? with
        | none => ⟨agent, r.paths, true⟩
        | some st =>
          let cid := TrimPrefix st.ContainerID "docker://"
          let metadata : ContainerMetadata :=
            { Id := { Namespace := pod.ObjectMeta.Namespace, Pod := pod.ObjectMeta.Name, ContId := cid },
              Ifaces := [{ HostVethName := r.ifname, Mac := r.mac, IPs := ips }] }
          let m1 := agent.epMetadata.set epKey ⟨[]⟩
          let inner := (m1.get? epKey).getD ⟨[]⟩
          ⟨{ agent with epMetadata := m1.set epKey (inner.set metadata.Id.ContId metadata) },
           r.paths, false⟩

/-! ## Example data and read-side definitions -/

/-- Neighbor table of the examples: one entry for 10.0.0.5 and one for the
longer address 10.0.0.90. -/
def neighborTable : String :=
  "10.0.0.90 dev eth0 lladdr 11:22:33:44:55:66 STALE\n10.0.0.5 dev eth0 lladdr aa:bb:cc:dd:ee:ff REACHABLE\n"

/-- Forwarding database of the examples: one entry for aa:bb:cc:dd:ee:ff. -/
def fdbTable : String :=
  "33:33:00:00:00:01 dev eth0 self permanent\naa:bb:cc:dd:ee:ff dev veth123 master br0\n"

/-- Forwarding database without an entry for aa:bb:cc:dd:ee:ff. -/
def fdbTableOther : String :=
  "33:33:00:00:00:01 dev eth0 self permanent\n"

/-- Metadata recorded through the CNI channel for pod `default/web`. -/
def cniRecord : ContainerMetadata where
  Id := { Namespace := "default", Pod := "web", ContId := "c0ffee" }
  Ifaces := [{ HostVethName := "veth7", Mac := "02:00:00:00:00:07", IPs := [] }]

/-- An agent in snoop mode that already holds the CNI record of `default/web`;
sync is not enabled and nothing is queued. -/
def snoopAgent : HostAgent where
  config := { SnoopOnly := true }
  epMetadata := ⟨[("default/web", ⟨[("c0ffee", cniRecord)]⟩)]⟩
  syncEnabled := false
  syncQueue := { queue := [], dirty := [], processing := [], shuttingDown := false,
                 tokens := 10, waiting := [] }

/-- Pod `default/web` with address 10.0.0.5 and one container. -/
def webPod : Pod where
  ObjectMeta := { Name := "web", Namespace := "default" }
  Status := { PodIP := "10.0.0.5", ContainerStatuses := [{ ContainerID := "docker://abc123" }] }

/-- Pod `default/web` with address 10.0.0.5 whose container statuses are not
reported yet. -/
def pendingPod : Pod where
  ObjectMeta := { Name := "web", Namespace := "default" }
  Status := { PodIP := "10.0.0.5", ContainerStatuses := [] }

/-- An agent in snoop mode that holds no endpoint metadata. -/
def snoopEmptyAgent : HostAgent where
  config := { SnoopOnly := true }
  epMetadata := ⟨[]⟩
  syncEnabled := false
  syncQueue := { queue := [], dirty := [], processing := [], shuttingDown := false,
                 tokens := 10, waiting := [] }

/-- Whether an event is a processor call. -/
def Event.isInvoke : Event → Bool
  | .invoke _ => true
  | _ => false

/-- Processors that do nothing and ask for no retry, as a processor does that
finds sync disabled. -/
def idleProcessors : Processors where
  syncEps := fun a => (false, a)
  syncServices := fun a => (false, a)
  syncOpflexServer := fun a => (false, a)
  syncSnat := fun a => (false, a)
  syncSnatNodeInfo := fun a => (false, a)
  syncRdConfig := fun a => (false, a)
  syncIPAMMeta := fun a => (false, a)
  UpdateLocalInfoCr := fun a => (false, a)

/-- Processors of which `syncEps` asks for a retry. -/
def retryProcessors : Processors :=
  { idleProcessors with syncEps := fun a => (true, a) }

/-- A fresh agent: sync disabled, nothing queued. -/
def freshAgent : HostAgent where
  config := { SnoopOnly := false }
  epMetadata := ⟨[]⟩
  syncEnabled := false
  syncQueue := { queue := [], dirty := [], processing := [], shuttingDown := false,
                 tokens := 10, waiting := [] }

/-- The domains `EnableSync` schedules. -/
def enableDomains : List String := ["services", "eps", "snat", "snatnodeInfo"]

/-- The registered domains `EnableSync` does not schedule. -/
def otherDomains : List String := ["opflexServer", "rdconfig", "ipamMeta", "snatLocalInfo"]

/-- The fresh agent after one domain went through the queue: one token of the
bucket is spent, nothing is queued. -/
def usedAgent : HostAgent :=
  { freshAgent with syncQueue := { freshAgent.syncQueue with tokens := 9 } }

/-- The course of events of the gated-sync property: `d` is scheduled, the
dispatcher takes one turn, then `EnableSync` is called.  `none` when the
dispatcher finds nothing to dequeue. -/
def scheduleTurnEnable (p : Processors) (agent : HostAgent) (d : String) : Option HostAgent :=
  match processSyncQueueTurn p (ScheduleSync agent d) with
  | none => none
  | some (_, _, agent1) => some (EnableSync agent1).2

end Hostagent

/-! # Properties -/

namespace Hostagent

open Metadata

/-! ## Splitting and the table scan -/

theorem splitChars_ne_nil (sep : Char) (cs : List Char) : splitChars sep cs ≠ [] := by
  cases cs with
  | nil => simp [splitChars]
  | cons c cs =>
    unfold splitChars
    split
    · simp
    · split <;> simp

theorem Split_eq_cons (s : String) (sep : Char) :
    ∃ e es, Split s sep = e :: es := by
  unfold Split
  cases h : splitChars sep s.data with
  | nil => exact absurd h (splitChars_ne_nil sep s.data)
  | cons f fs => exact ⟨String.mk f, fs.map String.mk, rfl⟩

/-- With key index 0 the scan never panics: it returns the value field of the
first line whose first field is the key, the empty string when that line is
too short or when no line matches. -/
theorem searchOutLoop_key0 (key : String) (v : Nat) (lines : List String) :
    searchOutLoop key 0 v lines =
      some (match lines.find? (fun l => decide ((Split l ' ').head? = some key)) with
            | some l => ((Split l ' ')[v]?).getD ""
            | none => "") := by
  induction lines with
  | nil => rfl
  | cons l rest ih =>
    obtain ⟨e, es, hsplit⟩ := Split_eq_cons l ' '
    by_cases h : e = key
    · subst h
      by_cases hv : v < (e :: es).length
      · have hlen : v < es.length + 1 := by simpa using hv
        simp [searchOutLoop, hsplit, List.find?, List.getElem?_eq_getElem hv]
        intro hle
        omega
      · have hlen : es.length + 1 ≤ v := by simpa using hv
        have hnone : (e :: es)[v]? = none := List.getElem?_eq_none (by simpa using hlen)
        simp [searchOutLoop, hsplit, List.find?, hnone, hlen]
    · simp [searchOutLoop, hsplit, List.find?, h, ih]

theorem searchOut_key0 (data key : String) (v : Nat) :
    searchOut data key 0 v =
      some (match firstLineFor data key with
            | some l => ((Split l ' ')[v]?).getD ""
            | none => "") := by
  unfold searchOut firstLineFor
  exact searchOutLoop_key0 key v _

/-! ## `fetchIf` -/

/-- C1: when both tools are found and run, the first neighbor line whose first
field is `ip` has the non-empty fifth field `mac`, and the first fdb line whose
first field is `mac` has the third field `ifname`, then `fetchIf ip` returns
`(mac, ifname)` with a nil error and without a panic. -/
theorem fetchIf_returns_mac_and_ifname (host : Host) (ps : Paths)
    (ip N F lineN lineF mac ifname : String)
    (hinit : (initPaths host ps).2 = none)
    (hN : host.CombinedOutput (initPaths host ps).1.ipPath ["neighbor", "show"] = .ok N)
    (hF : host.CombinedOutput (initPaths host ps).1.bridgePath ["fdb", "show"] = .ok F)
    (hlineN : firstLineFor N ip = some lineN)
    (hmac : (Split lineN ' ')[4]? = some mac)
    (hne : mac ≠ "")
    (hlineF : firstLineFor F mac = some lineF)
    (hif : (Split lineF ' ')[2]? = some ifname) :
    (fetchIf host ps ip).mac = mac ∧ (fetchIf host ps ip).ifname = ifname ∧
      (fetchIf host ps ip).err = none ∧ (fetchIf host ps ip).panicked = false := by
  rcases h : initPaths host ps with ⟨ps1, e⟩
  rw [h] at hinit hN hF
  simp only at hinit hN hF
  subst hinit
  have h1 : searchOut N ip 0 4 = some mac := by
    rw [searchOut_key0, hlineN]
    simp [hmac]
  have h2 : searchOut F mac 0 2 = some ifname := by
    rw [searchOut_key0, hlineF]
    simp [hif]
  simp [fetchIf, h, hN, hF, h1, h2, hne]

/-- C1 at the tables of the specification: 10.0.0.5 resolves to
aa:bb:cc:dd:ee:ff behind veth123. -/
theorem fetchIf_returns_mac_and_ifname_witness :
    (fetchIf (tableHost neighborTable fdbTable) noPaths "10.0.0.5").mac = "aa:bb:cc:dd:ee:ff" ∧
    (fetchIf (tableHost neighborTable fdbTable) noPaths "10.0.0.5").ifname = "veth123" ∧
    (fetchIf (tableHost neighborTable fdbTable) noPaths "10.0.0.5").err = none ∧
    (fetchIf (tableHost neighborTable fdbTable) noPaths "10.0.0.5").panicked = false :=
  fetchIf_returns_mac_and_ifname (tableHost neighborTable fdbTable) noPaths "10.0.0.5"
    neighborTable fdbTable
    "10.0.0.5 dev eth0 lladdr aa:bb:cc:dd:ee:ff REACHABLE"
    "aa:bb:cc:dd:ee:ff dev veth123 master br0"
    "aa:bb:cc:dd:ee:ff" "veth123"
    (by decide) rfl rfl (by decide) (by decide) (by decide) (by decide) (by decide)

/-- C2: when both tools are found, the neighbor command runs and no line of
its output has a first field equal to `ip`, `fetchIf ip` returns empty MAC and
interface name with the error `mac not found`, and the only command it ran is
the neighbor listing. -/
theorem fetchIf_mac_not_found (host : Host) (ps : Paths) (ip N : String)
    (hinit : (initPaths host ps).2 = none)
    (hN : host.CombinedOutput (initPaths host ps).1.ipPath ["neighbor", "show"] = .ok N)
    (hno : ∀ l ∈ Split N '\n', (Split l ' ').head? ≠ some ip) :
    fetchIf host ps ip =
      { mac := "", ifname := "", err := some "mac not found", panicked := false,
        paths := (initPaths host ps).1,
        ran := [[(initPaths host ps).1.ipPath, "neighbor", "show"]] } := by
  rcases h : initPaths host ps with ⟨ps1, e⟩
  rw [h] at hinit hN
  simp only at hinit hN
  subst hinit
  have hnone : firstLineFor N ip = none := by
    unfold firstLineFor
    rw [List.find?_eq_none]
    intro l hl
    simpa using hno l hl
  have h1 : searchOut N ip 0 4 = some "" := by
    rw [searchOut_key0, hnone]
  simp [fetchIf, h, hN, h1]

/-- C2 at a neighbor table with entries for 10.0.0.90 and 10.0.0.5 only: the
lookup of 10.0.0.9 fails with `mac not found` after one command. -/
theorem fetchIf_mac_not_found_witness :
    fetchIf (tableHost neighborTable fdbTable) noPaths "10.0.0.9" =
      { mac := "", ifname := "", err := some "mac not found", panicked := false,
        paths := ⟨"/sbin/ip", "/sbin/bridge"⟩,
        ran := [["/sbin/ip", "neighbor", "show"]] } :=
  fetchIf_mac_not_found (tableHost neighborTable fdbTable) noPaths "10.0.0.9" neighborTable
    (by decide) rfl (by decide)

/-- C3: with the MAC of 10.0.0.5 in the neighbor table and no line for that MAC
in the forwarding database, `fetchIf` returns the MAC, an empty interface name
and a nil error: the miss in the second table is not reported. -/
theorem fetchIf_fdb_miss_returns_nil_error :
    fetchIf (tableHost neighborTable fdbTableOther) noPaths "10.0.0.5" =
      { mac := "aa:bb:cc:dd:ee:ff", ifname := "", err := none, panicked := false,
        paths := ⟨"/sbin/ip", "/sbin/bridge"⟩,
        ran := [["/sbin/ip", "neighbor", "show"], ["/sbin/bridge", "fdb", "show"]] } ∧
    firstLineFor fdbTableOther "aa:bb:cc:dd:ee:ff" = none := by
  decide

/-- The two scans of `fetchIf` use key index 0, so the call always returns. -/
theorem fetchIf_panicked (host : Host) (ps : Paths) (ip : String) :
    (fetchIf host ps ip).panicked = false := by
  unfold fetchIf
  repeat' split
  all_goals first | rfl | simp_all [searchOut_key0]

/-! ## `snoopContainerIfaces` -/

/-- C4: if snoop mode is off, or the pod has no IP, or `epMetadata` already has
an entry under `namespace/name`, or `fetchIf` returns an error, then the call
of `snoopContainerIfaces` returns normally and leaves `epMetadata` exactly as
it was. -/
theorem snoopContainerIfaces_keeps_epMetadata (host : Host) (ParseIP : String → IP)
    (ps : Paths) (agent : HostAgent) (pod : Pod)
    (h : agent.config.SnoopOnly = false ∨ pod.Status.PodIP = "" ∨
      (agent.epMetadata.get? (pod.ObjectMeta.Namespace ++ "/" ++ pod.ObjectMeta.Name)).isSome ∨
      (fetchIf host ps pod.Status.PodIP).err ≠ none) :
    (snoopContainerIfaces host ParseIP ps agent pod).agent.epMetadata = agent.epMetadata ∧
      (snoopContainerIfaces host ParseIP ps agent pod).panicked = false := by
  have h5 := fetchIf_panicked host ps pod.Status.PodIP
  unfold snoopContainerIfaces
  by_cases h1 : agent.config.SnoopOnly = false
  · simp [h1]
  by_cases h2 : pod.Status.PodIP = ""
  · simp [h2]
  simp only [Bool.not_eq_false] at h1
  cases h3 : agent.epMetadata.get? (pod.ObjectMeta.Namespace ++ "/" ++ pod.ObjectMeta.Name) with
  | some m => simp [h1, h2, h3]
  | none =>
    have h4 : (fetchIf host ps pod.Status.PodIP).err ≠ none := by
      rcases h with h | h | h | h
      · simp [h1] at h
      · exact absurd h h2
      · simp [h3] at h
      · exact h
    simp [h1, h2, h3, h5, h4]

/-- C4 at an agent in snoop mode that already holds a record for the pod, on a
host where the snoop would succeed: the record stays as it was. -/
theorem snoopContainerIfaces_keeps_epMetadata_witness :
    (snoopContainerIfaces (tableHost neighborTable fdbTable) (fun _ => [10, 0, 0, 5]) noPaths
        snoopAgent webPod).agent.epMetadata = snoopAgent.epMetadata ∧
      (snoopContainerIfaces (tableHost neighborTable fdbTable) (fun _ => [10, 0, 0, 5]) noPaths
        snoopAgent webPod).panicked = false :=
  snoopContainerIfaces_keeps_epMetadata (tableHost neighborTable fdbTable)
    (fun _ => [10, 0, 0, 5]) noPaths snoopAgent webPod
    (Or.inr (Or.inr (Or.inl (by decide))))

end Hostagent

namespace Metadata

/-! ## IPAM metadata -/

theorem foldl_append_eq {α β : Type} (f : α → List β) (l : List α) (init : List β) :
    l.foldl (fun acc n => acc ++ f n) init = init ++ (l.map f).flatten := by
  induction l generalizing init with
  | nil => simp
  | cons a l ih => simp [ih, List.append_assoc]

theorem foldl_subnets_eq (g : IPNet → Subnet) (subnets : List IPNet) (r : IPAMMetaData) :
    subnets.foldl (fun result nw => { result with Map := result.Map ++ [g nw] }) r =
      { r with Map := r.Map ++ subnets.map g } := by
  induction subnets generalizing r with
  | nil => simp
  | cons a l ih => simp [ih, List.append_assoc]

theorem genIPAMMeta_eq (lib : Lib) (vtep : String) (ipRanges : NetIps) :
    genIPAMMeta lib vtep ipRanges =
      { UUID := "", Map := (referenceDocument lib "" vtep ipRanges).Map } := by
  unfold genIPAMMeta referenceDocument
  simp only [foldl_append_eq, foldl_subnets_eq, List.nil_append, List.map_flatten, List.map_map]
  rfl

/-- C5: with `Range2Cidr` as the specification describes it, the owned V4
range 10.1.0.1 to 10.1.0.255 and the tunnel endpoint 192.168.1.10 give exactly
one subnet entry, network 10.1.0.0/24 with that tunnel endpoint. -/
theorem genIPAMMeta_example (marshal : IPAMMetaData → Except String String)
    (write : String → String → Nat → Option String) :
    (genIPAMMeta (ipv4Lib marshal write) "192.168.1.10" exampleRanges).Map =
      [{ Network := "10.1.0.0/24", VTEP := "192.168.1.10" }] := by
  rfl

/-- C6: the document `WriteIPAMMetaData` hands to the encoder is the reference
document (identifier `file-vtep`, one entry per prefix of each V4 range in list
order, every entry tagged with `vtep`); the V6 ranges do not enter it; and the
call writes the encoding of that document to `file` with mode 0644, or returns
the encoder's error without writing. -/
theorem WriteIPAMMetaData_document (lib : Lib) (file vtep : String) (ipRanges : NetIps) :
    (WriteIPAMMetaData lib file vtep ipRanges).document = referenceDocument lib file vtep ipRanges ∧
    (∀ v6 : List IpRange,
      (WriteIPAMMetaData lib file vtep { ipRanges with V6 := v6 }).document =
        (WriteIPAMMetaData lib file vtep ipRanges).document) ∧
    (∀ n ∈ (WriteIPAMMetaData lib file vtep ipRanges).document.Map, n.VTEP = vtep) ∧
    (match lib.MarshalIndent (referenceDocument lib file vtep ipRanges) with
     | .ok datacont =>
       (WriteIPAMMetaData lib file vtep ipRanges).written = some (file, datacont, 0o644) ∧
       (WriteIPAMMetaData lib file vtep ipRanges).err = lib.WriteFile file datacont 0o644
     | .error e =>
       (WriteIPAMMetaData lib file vtep ipRanges).written = none ∧
       (WriteIPAMMetaData lib file vtep ipRanges).err = some e) := by
  have hdoc : ∀ r : NetIps,
      (WriteIPAMMetaData lib file vtep r).document = referenceDocument lib file vtep r := by
    intro r
    unfold WriteIPAMMetaData
    simp only [genIPAMMeta_eq]
    split <;> rfl
  refine ⟨hdoc ipRanges, ?_, ?_, ?_⟩
  · intro v6
    rw [hdoc, hdoc]
    rfl
  · intro n hn
    rw [hdoc] at hn
    simp only [referenceDocument, List.mem_flatten, List.mem_map] at hn
    obtain ⟨l, ⟨r, _, rfl⟩, hn⟩ := hn
    simp only [List.mem_map] at hn
    obtain ⟨nw, _, rfl⟩ := hn
    rfl
  · unfold WriteIPAMMetaData
    simp only [genIPAMMeta_eq]
    have href : (⟨file ++ "-" ++ vtep, (referenceDocument lib "" vtep ipRanges).Map⟩ :
        IPAMMetaData) = referenceDocument lib file vtep ipRanges := rfl
    rw [href]
    cases lib.MarshalIndent (referenceDocument lib file vtep ipRanges) <;> simp

end Metadata

namespace Hostagent

/-! ## Sync gate and dispatcher -/

theorem ScheduleSync_syncEnabled (agent : HostAgent) (d : String) :
    (ScheduleSync agent d).syncEnabled = agent.syncEnabled := rfl

theorem Add_shuttingDown (q : SyncQueue) (item : Item) :
    (q.Add item).shuttingDown = q.shuttingDown := by
  unfold SyncQueue.Add
  repeat' split
  all_goals rfl

theorem mem_dirty_Add (q : SyncQueue) (item x : Item) (h : q.shuttingDown = false) :
    x ∈ (q.Add item).dirty ↔ x ∈ q.dirty ∨ x = item := by
  unfold SyncQueue.Add
  simp only [h, Bool.false_eq_true, if_false]
  by_cases h1 : item ∈ q.dirty
  · simp only [h1, if_true]
    constructor
    · exact Or.inl
    · rintro (hx | rfl)
      · exact hx
      · exact h1
  · by_cases h2 : item ∈ q.processing <;> simp [h1, h2]

theorem AddRateLimited_shuttingDown (q : SyncQueue) (item : Item) :
    (q.AddRateLimited item).shuttingDown = q.shuttingDown := by
  unfold SyncQueue.AddRateLimited
  simp only
  repeat' split
  all_goals first | rfl | exact Add_shuttingDown _ _

theorem Add_waiting (q : SyncQueue) (item : Item) : (q.Add item).waiting = q.waiting := by
  unfold SyncQueue.Add
  repeat' split
  all_goals rfl

theorem mem_dirty_Add_iff (q : SyncQueue) (item x : Item) :
    (x ∈ q.dirty → x ∈ (q.Add item).dirty) ∧
    (x ∈ (q.Add item).dirty → x ∈ q.dirty ∨ x = item) := by
  cases hs : q.shuttingDown with
  | true =>
    have hq : q.Add item = q := by simp [SyncQueue.Add, hs]
    rw [hq]
    exact ⟨id, Or.inl⟩
  | false =>
    rw [mem_dirty_Add q item x hs]
    exact ⟨Or.inl, id⟩

/-- A call of `AddRateLimited` touches the dirty set for its own item only. -/
theorem mem_dirty_AddRateLimited (q : SyncQueue) (item x : Item) :
    (x ∈ q.dirty → x ∈ (q.AddRateLimited item).dirty) ∧
    (x ∈ (q.AddRateLimited item).dirty → x ∈ q.dirty ∨ x = item) := by
  unfold SyncQueue.AddRateLimited
  simp only
  split
  · exact ⟨id, Or.inl⟩
  · split
    · exact mem_dirty_Add_iff { q with tokens := q.tokens - 1 } item x
    · split
      · exact ⟨id, Or.inl⟩
      · exact ⟨id, Or.inl⟩

/-- A call of `AddRateLimited` touches the held-back items for its own item
only. -/
theorem mem_waiting_AddRateLimited (q : SyncQueue) (item x : Item) :
    (x ∈ q.waiting → x ∈ (q.AddRateLimited item).waiting) ∧
    (x ∈ (q.AddRateLimited item).waiting → x ∈ q.waiting ∨ x = item) := by
  unfold SyncQueue.AddRateLimited
  simp only
  split
  · exact ⟨id, Or.inl⟩
  · split
    · rw [Add_waiting]
      exact ⟨id, Or.inl⟩
    · split
      · exact ⟨id, Or.inl⟩
      · simp only [List.mem_append, List.mem_singleton]
        exact ⟨Or.inl, id⟩

/-- On a queue that is not shutting down `AddRateLimited` hands the item over:
it is on the queue or held back by the rate limiter. -/
theorem AddRateLimited_hands_over (q : SyncQueue) (item : Item)
    (hs : q.shuttingDown = false) :
    item ∈ (q.AddRateLimited item).dirty ∨ item ∈ (q.AddRateLimited item).waiting := by
  unfold SyncQueue.AddRateLimited
  simp only
  split
  · rename_i h
    rw [hs] at h
    exact absurd h (by decide)
  · split
    · left
      exact (mem_dirty_Add { q with tokens := q.tokens - 1 } item item hs).mpr (Or.inr rfl)
    · right
      split
      · assumption
      · simp

theorem ScheduleSync_shuttingDown (agent : HostAgent) (d : String) :
    (ScheduleSync agent d).syncQueue.shuttingDown = agent.syncQueue.shuttingDown :=
  AddRateLimited_shuttingDown _ _

/-- Scheduling `d` leaves every other domain as it was, on the queue and with
the rate limiter. -/
theorem ScheduleSync_other (agent : HostAgent) (d x : String) (h : x ≠ d) :
    (scheduled (ScheduleSync agent d) x ↔ scheduled agent x) ∧
    (parked (ScheduleSync agent d) x ↔ parked agent x) := by
  have hne : Item.str x ≠ Item.str d := fun he => h (Item.str.inj he)
  have h1 := mem_dirty_AddRateLimited agent.syncQueue (.str d) (.str x)
  have h2 := mem_waiting_AddRateLimited agent.syncQueue (.str d) (.str x)
  unfold scheduled parked ScheduleSync
  constructor
  · exact ⟨fun hx => (h1.2 hx).resolve_right hne, h1.1⟩
  · exact ⟨fun hx => (h2.2 hx).resolve_right hne, h2.1⟩

/-- Scheduling never takes a domain off the queue or away from the rate
limiter. -/
theorem ScheduleSync_keeps (agent : HostAgent) (d x : String)
    (h : scheduled agent x ∨ parked agent x) :
    scheduled (ScheduleSync agent d) x ∨ parked (ScheduleSync agent d) x := by
  have h1 := mem_dirty_AddRateLimited agent.syncQueue (.str d) (.str x)
  have h2 := mem_waiting_AddRateLimited agent.syncQueue (.str d) (.str x)
  unfold scheduled parked ScheduleSync at *
  rcases h with h | h
  · exact Or.inl (h1.1 h)
  · exact Or.inr (h2.1 h)

/-- Scheduling `d` on a queue that is not shutting down hands `d` over. -/
theorem ScheduleSync_hands_over (agent : HostAgent) (d : String)
    (hq : agent.syncQueue.shuttingDown = false) :
    scheduled (ScheduleSync agent d) d ∨ parked (ScheduleSync agent d) d :=
  AddRateLimited_hands_over agent.syncQueue (.str d) hq

theorem EnableSync_of_disabled (agent : HostAgent) (h : agent.syncEnabled = false) :
    EnableSync agent =
      (true, scheduleSyncNodeInfo (scheduleSyncSnats (scheduleSyncEps
        (scheduleSyncServices { agent with syncEnabled := true })))) := by
  simp [EnableSync, h]

theorem EnableSync_of_enabled (agent : HostAgent) (h : agent.syncEnabled = true) :
    EnableSync agent = (false, agent) := by
  simp [EnableSync, h]

theorem EnableSync_syncEnabled (agent : HostAgent) : (EnableSync agent).2.syncEnabled = true := by
  cases h : agent.syncEnabled with
  | false => rw [EnableSync_of_disabled agent h]; rfl
  | true => rw [EnableSync_of_enabled agent h]; exact h

/-- The first `EnableSync` leaves a domain outside its four as it was, on the
queue and with the rate limiter. -/
theorem EnableSync_other_domain (agent : HostAgent) (e : String)
    (hen : agent.syncEnabled = false) (he : e ∉ enableDomains) :
    (scheduled (EnableSync agent).2 e ↔ scheduled agent e) ∧
    (parked (EnableSync agent).2 e ↔ parked agent e) := by
  simp only [enableDomains, List.mem_cons, List.mem_singleton, List.not_mem_nil, or_false,
    not_or] at he
  obtain ⟨e1, e2, e3, e4⟩ := he
  rw [EnableSync_of_disabled agent hen]
  simp only [scheduleSyncNodeInfo, scheduleSyncSnats, scheduleSyncEps, scheduleSyncServices]
  have h1 := ScheduleSync_other { agent with syncEnabled := true } "services" e e1
  have h2 := ScheduleSync_other (ScheduleSync { agent with syncEnabled := true } "services")
    "eps" e e2
  have h3 := ScheduleSync_other
    (ScheduleSync (ScheduleSync { agent with syncEnabled := true } "services") "eps") "snat" e e3
  have h4 := ScheduleSync_other
    (ScheduleSync (ScheduleSync (ScheduleSync { agent with syncEnabled := true } "services")
      "eps") "snat") "snatnodeInfo" e e4
  have hs : scheduled { agent with syncEnabled := true } e ↔ scheduled agent e := Iff.rfl
  have hp : parked { agent with syncEnabled := true } e ↔ parked agent e := Iff.rfl
  exact ⟨h4.1.trans (h3.1.trans (h2.1.trans (h1.1.trans hs))),
    h4.2.trans (h3.2.trans (h2.2.trans (h1.2.trans hp)))⟩

/-- The first `EnableSync` on a queue that is not shutting down hands each of
its four domains over: the domain is on the queue or held back by the rate
limiter. -/
theorem EnableSync_hands_over (agent : HostAgent) (d : String)
    (hen : agent.syncEnabled = false) (hq : agent.syncQueue.shuttingDown = false)
    (hd : d ∈ enableDomains) :
    scheduled (EnableSync agent).2 d ∨ parked (EnableSync agent).2 d := by
  rw [EnableSync_of_disabled agent hen]
  simp only [scheduleSyncNodeInfo, scheduleSyncSnats, scheduleSyncEps, scheduleSyncServices]
  have h0 : ({ agent with syncEnabled := true } : HostAgent).syncQueue.shuttingDown = false := hq
  have h1 := (ScheduleSync_shuttingDown { agent with syncEnabled := true } "services").trans h0
  have h2 := (ScheduleSync_shuttingDown _ "eps").trans h1
  have h3 := (ScheduleSync_shuttingDown _ "snat").trans h2
  simp only [enableDomains, List.mem_cons, List.mem_singleton, List.not_mem_nil, or_false] at hd
  rcases hd with rfl | rfl | rfl | rfl
  · exact ScheduleSync_keeps _ _ _ (ScheduleSync_keeps _ _ _ (ScheduleSync_keeps _ _ _
      (ScheduleSync_hands_over _ _ h0)))
  · exact ScheduleSync_keeps _ _ _ (ScheduleSync_keeps _ _ _ (ScheduleSync_hands_over _ _ h1))
  · exact ScheduleSync_keeps _ _ _ (ScheduleSync_hands_over _ _ h2)
  · exact ScheduleSync_hands_over _ _ h3

theorem registry_lookup (p : Processors) (d : String) (hd : d ∈ registeredDomains) :
    ∃ f, (syncProcessors p).get? d = some f := by
  simp only [registeredDomains, List.mem_cons, List.mem_singleton, List.not_mem_nil,
    or_false] at hd
  rcases hd with rfl | rfl | rfl | rfl | rfl | rfl | rfl | rfl
  all_goals exact ⟨_, rfl⟩

theorem registry_lookup_none (p : Processors) (d : String) (hd : d ∉ registeredDomains) :
    (syncProcessors p).get? d = none := by
  simp only [registeredDomains, List.mem_cons, List.mem_singleton, List.not_mem_nil,
    or_false, not_or] at hd
  obtain ⟨h1, h2, h3, h4, h5, h6, h7, h8⟩ := hd
  have b : ∀ s : String, d ≠ s → (d == s) = false := fun s hs => beq_eq_false_iff_ne.mpr hs
  simp only [syncProcessors, GoMap.get?, List.lookup, b _ h1, b _ h2, b _ h3, b _ h4, b _ h5,
    b _ h6, b _ h7, b _ h8]

/-- C7: from a state `a` with sync disabled the call sets `syncEnabled` and
returns `changed = true`; from a state `b` with sync enabled it returns
`changed = false` and leaves the whole agent, queue included, as it was; hence
from any state `c` a second call changes nothing after the first: same agent,
same scheduled domains. -/
theorem EnableSync_one_shot (a b c : HostAgent)
    (ha : a.syncEnabled = false) (hb : b.syncEnabled = true) :
    ((EnableSync a).1 = true ∧ (EnableSync a).2.syncEnabled = true) ∧
    ((EnableSync b).1 = false ∧ (EnableSync b).2 = b) ∧
    ((EnableSync (EnableSync c).2).1 = false ∧
      (EnableSync (EnableSync c).2).2 = (EnableSync c).2 ∧
      ∀ d, scheduled (EnableSync (EnableSync c).2).2 d ↔ scheduled (EnableSync c).2 d) := by
  have hc := EnableSync_of_enabled (EnableSync c).2 (EnableSync_syncEnabled c)
  refine ⟨⟨?_, EnableSync_syncEnabled a⟩, ⟨?_, ?_⟩, ?_, ?_, ?_⟩
  · rw [EnableSync_of_disabled a ha]
  · rw [EnableSync_of_enabled b hb]
  · rw [EnableSync_of_enabled b hb]
  · rw [hc]
  · rw [hc]
  · intro d
    rw [hc]

/-- C7 at the fresh agent: the first call enables sync, the second call on the
result changes nothing. -/
theorem EnableSync_one_shot_witness :
    ((EnableSync freshAgent).1 = true ∧ (EnableSync freshAgent).2.syncEnabled = true) ∧
    ((EnableSync (EnableSync freshAgent).2).1 = false ∧
      (EnableSync (EnableSync freshAgent).2).2 = (EnableSync freshAgent).2) ∧
    ((EnableSync (EnableSync freshAgent).2).1 = false ∧
      (EnableSync (EnableSync freshAgent).2).2 = (EnableSync freshAgent).2 ∧
      ∀ d, scheduled (EnableSync (EnableSync freshAgent).2).2 d ↔
        scheduled (EnableSync freshAgent).2 d) :=
  EnableSync_one_shot freshAgent (EnableSync freshAgent).2 freshAgent (by decide) (by decide)

/-- C8, as stated, fails: with sync disabled and `eps` waiting in the queue,
the dispatcher turn calls the `eps` processor. -/
theorem dispatcher_gate_counterexample :
    ¬ (∀ (p : Processors) (agent : HostAgent) (d : String) (evs : List Event)
        (agent1 : HostAgent),
        agent.syncEnabled = false →
        processSyncQueueTurn p agent = some (.str d, evs, agent1) →
        ∀ e ∈ evs, e.isInvoke = false) := by
  intro h
  have h1 := h idleProcessors (ScheduleSync freshAgent "eps") "eps"
    [.invoke "eps", .forget (.str "eps"), .done (.str "eps")] usedAgent rfl (by decide)
    (.invoke "eps") (by decide)
  exact absurd h1 (by decide)

/-- C8 amended: the dispatcher does not look at `syncEnabled`.  Whatever value
`b` the flag has, a turn that finds the registered domain `d` at the head of
the queue dequeues it and calls the processor of `d`, and no other, once. -/
theorem dispatcher_invokes_whatever_syncEnabled (p : Processors) (agent : HostAgent)
    (d : String) (rest : List Item)
    (hd : d ∈ registeredDomains) (hq : agent.syncQueue.queue = .str d :: rest) :
    ∀ b : Bool,
      (processSyncQueueTurn p { agent with syncEnabled := b }).map
        (fun r => (r.1, r.2.1.filter Event.isInvoke)) = some (.str d, [.invoke d]) := by
  intro b
  obtain ⟨f, hf⟩ := registry_lookup p d hd
  simp only [processSyncQueueTurn, SyncQueue.Get, hq, dispatch, runProcessor, hf]
  split <;> simp [Event.isInvoke, List.filter]

/-- C8 amended, at the fresh agent with `eps` scheduled: with the flag false
and with the flag true the turn calls the `eps` processor. -/
theorem dispatcher_invokes_whatever_syncEnabled_witness :
    (processSyncQueueTurn idleProcessors
        { ScheduleSync freshAgent "eps" with syncEnabled := false }).map
      (fun r => (r.1, r.2.1.filter Event.isInvoke)) = some (.str "eps", [.invoke "eps"]) ∧
    (processSyncQueueTurn idleProcessors
        { ScheduleSync freshAgent "eps" with syncEnabled := true }).map
      (fun r => (r.1, r.2.1.filter Event.isInvoke)) = some (.str "eps", [.invoke "eps"]) :=
  ⟨dispatcher_invokes_whatever_syncEnabled idleProcessors (ScheduleSync freshAgent "eps") "eps" []
      (by decide) (by decide) false,
   dispatcher_invokes_whatever_syncEnabled idleProcessors (ScheduleSync freshAgent "eps") "eps" []
      (by decide) (by decide) true⟩

/-- C9: `rdconfig` is scheduled on the fresh agent while sync is disabled, the
dispatcher dequeues it, its processor asks for no retry (`Forget`, `Done`),
and after the first `EnableSync` the domain is neither on the queue nor held
back by the rate limiter: it is dropped.  The same course of events drops
each of opflexServer, rdconfig, ipamMeta and snatLocalInfo, while each of
services, eps, snat and snatnodeInfo is on the queue afterwards. -/
theorem EnableSync_drops_other_domains :
    (freshAgent.syncEnabled = false ∧
      processSyncQueueTurn idleProcessors (ScheduleSync freshAgent "rdconfig") =
        some (.str "rdconfig",
          [.invoke "rdconfig", .forget (.str "rdconfig"), .done (.str "rdconfig")], usedAgent) ∧
      usedAgent.syncEnabled = false ∧
      (EnableSync usedAgent).1 = true ∧
      ¬ scheduled (EnableSync usedAgent).2 "rdconfig" ∧
      ¬ parked (EnableSync usedAgent).2 "rdconfig") ∧
    (∀ d ∈ otherDomains,
      (scheduleTurnEnable idleProcessors freshAgent d).map
        (fun a => decide (scheduled a d ∨ parked a d)) = some false) ∧
    (∀ d ∈ enableDomains,
      (scheduleTurnEnable idleProcessors freshAgent d).map
        (fun a => decide (scheduled a d)) = some true) := by
  decide

/-- C10: for a dequeued item that is the name `d` of a registered domain, the
dispatcher calls the processor `f` registered for `d` once, then calls
`AddRateLimited` on the item if `f` returned true and `Forget` otherwise, then
`Done` on the item, once; for any other item it calls no processor, then
`Forget` and `Done` on the item. -/
theorem dispatch_contract (p : Processors) (agent : HostAgent) (item : Item) :
    (∀ d, item = .str d → d ∈ registeredDomains →
      ∃ f, (syncProcessors p).get? d = some f ∧
        (dispatch p agent item).1 =
          [.invoke d, if (f agent).1 = true then .addRateLimited item else .forget item,
           .done item] ∧
        (dispatch p agent item).2.syncQueue =
          if (f agent).1 = true then ((f agent).2.syncQueue.AddRateLimited item).Done item
          else ((f agent).2.syncQueue.Forget item).Done item) ∧
    ((∀ d, item = .str d → d ∉ registeredDomains) →
      (dispatch p agent item).1 = [.forget item, .done item] ∧
      (dispatch p agent item).2.syncQueue = (agent.syncQueue.Forget item).Done item) := by
  constructor
  · rintro d rfl hd
    obtain ⟨f, hf⟩ := registry_lookup p d hd
    refine ⟨f, hf, ?_, ?_⟩
    · simp only [dispatch, runProcessor, hf]
      split <;> simp_all
    · simp only [dispatch, runProcessor, hf]
      split <;> simp_all
  · intro h
    cases item with
    | str d =>
      have hnone := registry_lookup_none p d (h d rfl)
      simp [dispatch, runProcessor, hnone]
    | other n => simp [dispatch, runProcessor]

/-- C10 at the item `eps` with a processor that asks for a retry: one call of
the `eps` processor, then `AddRateLimited`, then `Done`. -/
theorem dispatch_contract_witness :
    ∃ f, (syncProcessors retryProcessors).get? "eps" = some f ∧
      (dispatch retryProcessors freshAgent (.str "eps")).1 =
        [.invoke "eps",
         if (f freshAgent).1 = true then .addRateLimited (.str "eps") else .forget (.str "eps"),
         .done (.str "eps")] ∧
      (dispatch retryProcessors freshAgent (.str "eps")).2.syncQueue =
        if (f freshAgent).1 = true then
          ((f freshAgent).2.syncQueue.AddRateLimited (.str "eps")).Done (.str "eps")
        else ((f freshAgent).2.syncQueue.Forget (.str "eps")).Done (.str "eps") :=
  (dispatch_contract retryProcessors freshAgent (.str "eps")).1 "eps" rfl (by decide)

end Hostagent

namespace Hostagent

open Metadata

/-! ## Index safety of the snoop path -/

/-- When `snoopContainerIfaces` ends in a panic: exactly when it gets past the
four early returns and the pod reports no container status. -/
theorem snoopContainerIfaces_panicked_iff (host : Host) (ParseIP : String → IP) (ps : Paths)
    (agent : HostAgent) (pod : Pod) :
    (snoopContainerIfaces host ParseIP ps agent pod).panicked = true ↔
      (agent.config.SnoopOnly = true ∧ pod.Status.PodIP ≠ "" ∧
        agent.epMetadata.get? (pod.ObjectMeta.Namespace ++ "/" ++ pod.ObjectMeta.Name) = none ∧
        (fetchIf host ps pod.Status.PodIP).err = none ∧
        pod.Status.ContainerStatuses = []) := by
  have h5 := fetchIf_panicked host ps pod.Status.PodIP
  unfold snoopContainerIfaces
  by_cases h1 : agent.config.SnoopOnly = true
  swap
  · simp [h1]
  by_cases h2 : pod.Status.PodIP = ""
  · simp [h1, h2]
  cases h3 : agent.epMetadata.get? (pod.ObjectMeta.Namespace ++ "/" ++ pod.ObjectMeta.Name) with
  | some m => simp [h1, h2, h3]
  | none =>
    by_cases h4 : (fetchIf host ps pod.Status.PodIP).err = none
    swap
    · simp [h1, h2, h3, h4, h5]
    cases h6 : pod.Status.ContainerStatuses with
    | nil => simp [h1, h2, h3, h4, h5, h6]
    | cons st sts => simp [h1, h2, h3, h4, h5, h6]

/-- C11: the two table scans of `fetchIf` stay within bounds for every text,
so `fetchIf` never panics; but `snoopContainerIfaces` reads
`ContainerStatuses[0]` unguarded: for the pod with IP 10.0.0.5, no metadata
entry, a successful `fetchIf` and an empty status list the call panics with an
index out of range (and records nothing). -/
theorem snoopContainerIfaces_empty_statuses_panics :
    (∀ (data key : String) (valIndex : Nat), (searchOut data key 0 valIndex).isSome = true) ∧
    (∀ (host : Host) (ps : Paths) (ip : String), (fetchIf host ps ip).panicked = false) ∧
    (snoopEmptyAgent.config.SnoopOnly = true ∧ pendingPod.Status.PodIP ≠ "" ∧
      snoopEmptyAgent.epMetadata.get? "default/web" = none ∧
      (fetchIf (tableHost neighborTable fdbTable) noPaths pendingPod.Status.PodIP).err = none ∧
      pendingPod.Status.ContainerStatuses = [] ∧
      (snoopContainerIfaces (tableHost neighborTable fdbTable) (fun _ => [10, 0, 0, 5]) noPaths
        snoopEmptyAgent pendingPod).panicked = true ∧
      (snoopContainerIfaces (tableHost neighborTable fdbTable) (fun _ => [10, 0, 0, 5]) noPaths
        snoopEmptyAgent pendingPod).agent = snoopEmptyAgent) := by
  refine ⟨?_, fetchIf_panicked, ?_⟩
  · intro data key valIndex
    rw [searchOut_key0]
    rfl
  · decide

end Hostagent
